import Mathlib

/-!
Shallow embedding of the mailbox-synchronization core of the repository:

* `src/helpers/imap-notifier.js` — the `IMAPNotifier` class: `addEntries`
  (modseq minting, entry stamping, corrective message updates, journal
  append), the debounce scheduler `scheduleDataEvent`, the broadcast
  subscriber handler, `fire`, and `releaseConnection`.
* `src/config/caldav.js` (second document in the file) — `getMessages`
  and `onFetch`: the FETCH pipeline with UID pagination, snapshot
  isolation for full-range fetches, and batched side-effect flushing.

JavaScript machine integers here are small positive counters (modseqs,
uids, byte counts, millisecond clocks), far below 2^53, so they are
modelled as `Nat`.  JavaScript truthiness is modelled explicitly where
the source relies on it (`!entry.modseq`, `!data.p`, `if (lastUid)`).
External collaborators (SQLite store, redis pub/sub, sockets) are
modelled as explicit state or environment functions, per their contracts.
-/

namespace Spec2Proof

/-! ## Notifier data model (src/helpers/imap-notifier.js) -/

/-- Truthiness of an optional JS number: `undefined`/`null` and `0` are falsy. -/
def truthyNat : Option Nat → Bool
  | none => false
  | some n => !(n == 0)

/-- A mailbox row: `_id` and the authoritative `modifyIndex` modseq counter. -/
structure NMailbox where
  id : Nat
  modifyIndex : Nat
  deriving DecidableEq, Repr

/-- A message row: `_id`, owning `mailbox`, and its stored `modseq`. -/
structure NMessage where
  id : Nat
  mailbox : Nat
  modseq : Nat
  deriving DecidableEq, Repr

/-- A journal entry as passed to / produced by `addEntries`: `modseq`,
`created` and `mailbox` may be absent and are stamped in; `message` is an
optional message reference (an ObjectId, always truthy when present). -/
structure NEntry where
  modseq : Option Nat
  created : Option Nat
  mailbox : Option Nat
  message : Option Nat
  deriving DecidableEq, Repr

/-- The per-account store reached through the session: mailboxes, messages
and the append-only journal. -/
structure NStore where
  mailboxes : List NMailbox
  messages : List NMessage
  journal : List NEntry
  deriving DecidableEq, Repr

/-- The parts of `(instance, session)` that `addEntries` validates:
presence of a usable db handle, of the WebSocketAsPromised instance, and
of the authenticated user's password string. -/
structure NSession where
  hasDb : Bool
  hasWsp : Bool
  hasPassword : Bool
  deriving DecidableEq, Repr

/-- The `entries` argument of `addEntries`: JS allows a falsy value, a
single (truthy, non-array) entry object, or an array. -/
inductive EntriesArg where
  | null
  | single (e : NEntry)
  | array (es : List NEntry)
  deriving DecidableEq, Repr

/-- Errors thrown by `addEntries`: the three `TypeError` contract checks
and the `IMAPError` for a missing mailbox. -/
inductive AddErr where
  | dbMissing
  | wspMissing
  | passwordMissing
  | noSuchMailbox
  deriving DecidableEq, Repr

/-- Successful completion record of `addEntries`: the new store, the list
of corrective per-message updates issued (message id, new modseq), the
stamped entries appended to the journal, the modseq used for stamping,
and the returned count. -/
structure AddDone where
  store : NStore
  updates : List (Nat × Nat)
  appended : List NEntry
  modseq : Nat
  ret : Nat
  deriving DecidableEq, Repr

/-- Result of `addEntries`: `noop` models the early `return false`. -/
inductive AddOut where
  | noop
  | done (d : AddDone)
  deriving DecidableEq, Repr

/-- Normalisation of the `entries` argument (lines 141–145): a truthy
non-array value is wrapped in a one-element array; a falsy value or an
empty array short-circuits to the no-op result (`none` here). -/
def entriesOf : EntriesArg → Option (List NEntry)
  | .null => none
  | .single e => some [e]
  | .array [] => none
  | .array (e :: es) => some (e :: es)

/-- The "updated" set (lines 147–149): messages referenced by entries
whose `modseq` is falsy (`!entry.modseq && entry.message`). -/
def updatedOf (es : List NEntry) : List Nat :=
  es.filterMap fun e => if truthyNat e.modseq then none else e.message

/-- `Mailboxes.findOneAndUpdate` with `{$inc: {modifyIndex: 1}}` and
`returnDocument: 'after'` (lines 174–188): increment the matching
mailbox's `modifyIndex` and return the updated document.  Mailbox ids
are unique in the store, so updating every row with the matching id
coincides with updating the single matching row. -/
def findOneAndUpdateInc (st : NStore) (mid : Nat) : Option NMailbox × NStore :=
  match st.mailboxes.find? (fun mb => mb.id == mid) with
  | none => (none, st)
  | some mb =>
    let mb' : NMailbox := { mb with modifyIndex := mb.modifyIndex + 1 }
    (some mb',
      { st with mailboxes := st.mailboxes.map fun x => if x.id == mid then mb' else x })

/-- Whether a message row is selected by the corrective-update pass
(lines 245–274): referenced by the updated set, in this mailbox, and
with a stored modseq strictly behind the minted one. -/
def behind (updated : List Nat) (mbId modseq : Nat) (m : NMessage) : Bool :=
  updated.contains m.id && m.mailbox == mbId && decide (m.modseq < modseq)

/-- Stamping of one entry (lines 204–208): a falsy `modseq` is replaced
by the minted/current modseq, a missing `created` by the shared
timestamp, a missing `mailbox` by the mailbox id. -/
def stampEntry (modseq now mbId : Nat) (e : NEntry) : NEntry :=
  { e with
    modseq := if truthyNat e.modseq then e.modseq else some modseq
    created := if e.created.isSome then e.created else some now
    mailbox := if e.mailbox.isSome then e.mailbox else some mbId }

/-- The tail of `addEntries` once the mailbox document is in hand (lines
201–284): stamp all entries, issue corrective updates for updated-set
messages whose modseq is behind, append everything to the journal, and
return the entry count. -/
def finishAdd (es : List NEntry) (updated : List Nat) (mailbox : NMailbox)
    (st1 : NStore) (now : Nat) : AddDone :=
  let modseq := mailbox.modifyIndex
  let es' := es.map (stampEntry modseq now mailbox.id)
  { store :=
      { st1 with
        messages := st1.messages.map fun m =>
          if behind updated mailbox.id modseq m then { m with modseq := modseq } else m
        journal := st1.journal ++ es' }
    updates := (st1.messages.filter (behind updated mailbox.id modseq)).map
      fun m => (m.id, modseq)
    appended := es'
    modseq := modseq
    ret := es.length }

/-- `IMAPNotifier.addEntries` (lines 118–285).  `mailboxId` is the `_id`
(ObjectIds are modelled as positive `Nat`, `0` standing for a falsy
`mailboxId`).  `now` is the shared creation timestamp.  The corrective
per-message update loop is modelled without store faults (faults there
are caught and only logged by the source, leaving the remaining flow
identical). -/
def addEntries (sess : NSession) (st : NStore) (mailboxId : Nat)
    (arg : EntriesArg) (now : Nat) : Except AddErr AddOut :=
  if sess.hasDb = false then .error .dbMissing
  else if sess.hasWsp = false then .error .wspMissing
  else if sess.hasPassword = false then .error .passwordMissing
  else match entriesOf arg with
  | none => .ok .noop
  | some es =>
    if mailboxId == 0 then .error .noSuchMailbox
    else match (if (updatedOf es).isEmpty
        then (st.mailboxes.find? (fun mb => mb.id == mailboxId), st)
        else findOneAndUpdateInc st mailboxId) with
      | (none, _) => .error .noSuchMailbox
      | (some mailbox, st1) => .ok (.done (finishAdd es (updatedOf es) mailbox st1 now))

/-- A session is usable by `addEntries` when all three contract checks pass. -/
def NSession.valid (s : NSession) : Bool :=
  s.hasDb && s.hasWsp && s.hasPassword

/-! ## releaseConnection (lines 315–343) -/

/-- The inputs `releaseConnection` reacts to: whether the session ever
authenticated (`session.user.alias_id` present), whether the db handle
exposes a `close` function, whether `pragma`/`close` throws, and whether
the pipelined counter decrement rejects. -/
structure RCData where
  authenticated : Bool
  hasCloseFn : Bool
  closeThrows : Bool
  decrRejects : Bool
  deriving DecidableEq, Repr

/-- Observable outcome of `releaseConnection`: the callback's two
arguments, whether the db was closed, and how many errors were
swallowed into `logger.fatal`. -/
structure RCOut where
  cbErr : Option Unit
  cbOk : Bool
  dbClosed : Bool
  fatalLogs : Nat
  deriving DecidableEq, Repr

/-- `IMAPNotifier.releaseConnection`: a never-authenticated session is a
no-op success; otherwise the db close is attempted with errors swallowed
and logged, the counter decrement is fire-and-forget with errors logged,
and the callback always receives `(null, true)`. -/
def releaseConnection (d : RCData) : RCOut :=
  if d.authenticated = false then
    { cbErr := none, cbOk := true, dbClosed := false, fatalLogs := 0 }
  else
    let closeLogs := if d.hasCloseFn && d.closeThrows then 1 else 0
    let closed := d.hasCloseFn && !d.closeThrows
    let decrLogs := if d.decrRejects then 1 else 0
    { cbErr := none, cbOk := true, dbClosed := closed, fatalLogs := closeLogs + decrLogs }

/-! ## Debounce scheduler `scheduleDataEvent` (lines 53–86)

Modelled as a deterministic state machine per account key, driven by a
timeline of pulse instants (milliseconds).  A `setTimeout(fire, 100)`
armed at instant `t` expires at `t + 100` unless cancelled first; timer
callbacks are run-to-completion, so between two pulses at most the one
armed timer can fire. -/

/-- The pending record `{ev, count, initial, timeout}` for one key:
pulse count, first-pulse time, and the instant the armed timer expires. -/
structure DebRecord where
  count : Nat
  initial : Nat
  timeoutAt : Nat
  deriving DecidableEq, Repr

/-- Scheduler state for one key plus the observable emission log (the
instants at which `this._listeners.emit(ev)` ran). -/
structure DebState where
  pending : Option DebRecord
  emitted : List Nat
  deriving DecidableEq, Repr

/-- Initial scheduler state: no pending record, nothing emitted. -/
def debInit : DebState := { pending := none, emitted := [] }

/-- One call of `scheduleDataEvent` at instant `t`: no pending record
creates `{count := 1, initial := t}` and arms a 100 ms timer; a pending
record is re-counted, its timer cancelled, and either fired immediately
(when `initial < t - 1000`, i.e. `initial + 1000 < t`) or re-armed for
another 100 ms. -/
def debPulse (st : DebState) (t : Nat) : DebState :=
  match st.pending with
  | none =>
    { pending := some { count := 1, initial := t, timeoutAt := t + 100 }
      emitted := st.emitted }
  | some rec =>
    if rec.initial + 1000 < t then
      { pending := none, emitted := st.emitted ++ [t] }
    else
      { pending := some { count := rec.count + 1, initial := rec.initial, timeoutAt := t + 100 }
        emitted := st.emitted }

/-- Let the armed timer expire if its deadline is at or before instant
`t` (used to deliver a pending `fire` before the next pulse arrives). -/
def debElapse (st : DebState) (t : Nat) : DebState :=
  match st.pending with
  | none => st
  | some rec =>
    if rec.timeoutAt ≤ t then { pending := none, emitted := st.emitted ++ [rec.timeoutAt] }
    else st

/-- Run the scheduler over a timeline of pulse instants: before each
pulse the armed timer gets a chance to expire, then the pulse is handled. -/
def debRun : DebState → List Nat → DebState
  | st, [] => st
  | st, t :: ts => debRun (debPulse (debElapse st t) t) ts

/-- After the last pulse, quiescence: the remaining armed timer (if any)
expires and fires. -/
def debFlush (st : DebState) : DebState :=
  match st.pending with
  | none => st
  | some rec => { pending := none, emitted := st.emitted ++ [rec.timeoutAt] }

/-- Full observable run: pulses at the given instants followed by
unbounded quiescence. -/
def debFinal (pulses : List Nat) : DebState := debFlush (debRun debInit pulses)

/-! ## Broadcast channel handling (lines 88–104, `fire` lines 287–299) -/

/-- A JSON value as far as truthiness is concerned (payloads travel as
JSON over the redis channel; `safeStringify` drops `undefined` fields,
so absence is modelled by `Option`). -/
inductive JVal where
  | jnull
  | jbool (b : Bool)
  | jnum (n : Int)
  | jstr (s : String)
  | jarr
  | jobj
  deriving DecidableEq, Repr

/-- JS truthiness of a JSON value: `null`, `false`, `0` and `""` are
falsy; arrays and objects are truthy. -/
def JVal.truthy : JVal → Bool
  | .jnull => false
  | .jbool b => b
  | .jnum n => !(n == 0)
  | .jstr s => !(s == "")
  | .jarr => true
  | .jobj => true

/-- Truthiness of an optional (possibly absent) JSON field. -/
def truthyOpt : Option JVal → Bool
  | none => false
  | some v => v.truthy

/-- A parsed envelope `{e, p}` as published on the shared channel. -/
structure BMessage where
  e : Option JVal
  p : Option JVal
  deriving DecidableEq, Repr

/-- What the subscriber handler does with one received message. -/
inductive BAction where
  | ignored
  | debounced (ev : JVal)
  | emitted (ev : JVal) (payload : Option JVal)
  deriving DecidableEq, Repr

/-- The subscriber `message` handler (lines 88–102): wrong channel and
unparseable messages are ignored (`parsed = none` models a JSON.parse
failure); `data.e && !data.p` routes through the debounce scheduler;
otherwise a truthy `data.e` is emitted immediately, exactly once, with
`data.p`, to the listeners registered under that key. -/
def handleBroadcast (channel expected : String) (parsed : Option BMessage) : BAction :=
  if !(channel == expected) then .ignored
  else match parsed with
  | none => .ignored
  | some data =>
    match data.e with
    | none => .ignored
    | some ev =>
      if !ev.truthy then .ignored
      else if !(truthyOpt data.p) then .debounced ev
      else .emitted ev data.p

/-- `EventEmitter.emit` fan-out: every locally registered `(key,
handler)` pair whose key matches receives the event exactly once. -/
def deliverTo (listeners : List (JVal × Nat)) (ev : JVal) : List Nat :=
  (listeners.filter fun l => l.1 == ev).map fun l => l.2

/-- `IMAPNotifier.fire` (lines 287–299): throws on a falsy alias id,
otherwise (deferred via `setImmediate`) publishes the envelope
`{e: aliasId, p: payload}` on the shared channel. -/
def fire (aliasId : JVal) (payload : Option JVal) : Except Unit BMessage :=
  if !aliasId.truthy then .error ()
  else .ok { e := some aliasId, p := payload }

/-! ## Fetch pipeline (src/config/caldav.js, `getMessages` / `onFetch`)

The SQLite query result is modelled as the list of rows the statement
returned, each row being `Option FMsg`: `some` when `convertResult`
produced a message, `none` when the row was unexpectedly absent (the
`!message` branch).  The store, socket, and notifier side effects are
modelled through an environment of outcome functions; every observable
action (streamed responses, `Messages.bulkWrite` calls, `addEntries`
calls, `fire` calls, fatal logs) is recorded in the state. -/

/-- Page size limit for resumable pagination (line 986). -/
def MAX_PAGE_SIZE : Nat := 2500

/-- Batch size for bulk writes and journal-entry flushes (line 987). -/
def MAX_BULK_WRITE_SIZE : Nat := 150

/-- A converted message as the fetch loop consumes it: `_id`, `uid`, and
whether its flag set already contains `\Seen`. -/
structure FMsg where
  id : Nat
  uid : Nat
  seen : Bool
  deriving DecidableEq, Repr

/-- Environment of one fetch: the request shape (`options.messages`
length, the session's `uidList` snapshot, `markAsSeen`, `metadataOnly`,
whether `flags` was projected), the abort flags polled at each row, the
compiled response size per message, the outcome of the k-th
`Messages.bulkWrite` call (`true` = reject), the outcome of the k-th
`notifier.addEntries` call, and the rows a resumed query returns for a
given `lastUid`. -/
structure FetchEnv where
  messagesLen : Nat
  uidList : List Nat
  markAsSeen : Bool
  metadataOnly : Bool
  flagsExist : Bool
  shutdown : Bool
  socketOpen : Bool
  respSize : FMsg → Nat
  flushFail : Nat → Bool
  entryFail : Nat → Bool
  requery : Option Nat → List (Option FMsg)

/-- The `1:*` detection (line 1036): the requested message set has the
same length as the session's selected `uidList`. -/
def FetchEnv.queryAll (env : FetchEnv) : Bool := env.messagesLen == env.uidList.length

/-- The accumulator threaded through `getMessages` plus ghost
observation fields: `entries`, `bulkWrite`, `successful`, `lastUid`,
`rowCount`, `totalBytes` are the six carried source variables; the rest
record what was streamed, every queued bulk op, every batch handed to
`Messages.bulkWrite` and to `addEntries`, `fire` calls, call indices for
outcome functions, and swallowed fatal logs. -/
structure FetchState where
  entries : List Nat
  bulkWrite : List (Nat × Nat)
  successful : Bool
  lastUid : Option Nat
  rowCount : Nat
  totalBytes : Nat
  streamed : List Nat
  flushes : List (List (Nat × Nat))
  entryFlushes : List (List Nat)
  pushed : List (Nat × Nat)
  fires : Nat
  flushIdx : Nat
  entryIdx : Nat
  fatalLogs : Nat
  deriving DecidableEq, Repr

/-- The initial accumulator `onFetch` passes to `getMessages` (lines
1374–1379). -/
def initFetchState : FetchState :=
  { entries := [], bulkWrite := [], successful := true, lastUid := none
    rowCount := 0, totalBytes := 0, streamed := [], flushes := []
    entryFlushes := [], pushed := [], fires := 0, flushIdx := 0
    entryIdx := 0, fatalLogs := 0 }

/-- Writing one formatted response to the session stream: bytes, the
streamed uid, and the row count (lines 1210–1218 / 1255–1263). -/
def streamUpd (env : FetchEnv) (st : FetchState) (m : FMsg) : FetchState :=
  { st with totalBytes := st.totalBytes + env.respSize m
            streamed := st.streamed ++ [m.uid]
            rowCount := st.rowCount + 1 }

/-- The queued `updateOne` operation for a message (lines 1266–1283),
identified by its filter (`_id`, `uid`). -/
def bulkOp (m : FMsg) : Nat × Nat := (m.id, m.uid)

/-- Outcome of processing one successfully converted row: continue the
loop with a new state, or `break` out of it (the bulk-flush failure
path). -/
inductive StepOut where
  | next (st : FetchState)
  | stop (st : FetchState)
  deriving DecidableEq, Repr

/-- Queueing the flag-update `updateOne` for a message (tracked also in
the ghost `pushed` log of every op ever queued). -/
def pushOp (st : FetchState) (m : FMsg) : FetchState :=
  { st with bulkWrite := st.bulkWrite ++ [bulkOp m]
            pushed := st.pushed ++ [bulkOp m] }

/-- The journal-entry flush nested inside a successful bulk flush (lines
1293–1308): when the entry batch reached the threshold, call
`addEntries`; a rejection is caught and logged, success clears the batch
and `fire`s the account. -/
def flushEntries (env : FetchEnv) (st : FetchState) : StepOut :=
  if MAX_BULK_WRITE_SIZE ≤ st.entries.length then
    if env.entryFail st.entryIdx then
      .next { st with entryIdx := st.entryIdx + 1, fatalLogs := st.fatalLogs + 1 }
    else
      .next { st with entryFlushes := st.entryFlushes ++ [st.entries]
                      entries := [], fires := st.fires + 1
                      entryIdx := st.entryIdx + 1 }
  else .next st

/-- The in-loop batched flush (lines 1285–1317): at the threshold, call
`Messages.bulkWrite`; a rejection discards both in-flight batches, logs
fatally, clears `successful` and breaks the loop; a success clears the
bulk batch and proceeds to the nested journal-entry flush. -/
def flushStep (env : FetchEnv) (st : FetchState) : StepOut :=
  if MAX_BULK_WRITE_SIZE ≤ st.bulkWrite.length then
    if env.flushFail st.flushIdx then
      .stop { st with bulkWrite := [], entries := [], successful := false
                      flushIdx := st.flushIdx + 1, fatalLogs := st.fatalLogs + 1 }
    else
      flushEntries env { st with flushes := st.flushes ++ [st.bulkWrite], bulkWrite := []
                                 flushIdx := st.flushIdx + 1 }
  else .next st

/-- The body of the row loop for a converted message (lines 1173–1317):
record `lastUid`; skip uids outside the snapshot on a full-range fetch;
compute `markAsSeen` (true only when requested, flags were projected,
and `\Seen` is absent); stream the response (the metadata-only shortcut
streams and moves on); queue the flag update when the response transform
did not itself mark the message seen; then run the threshold flush. -/
def stepRow (env : FetchEnv) (st0 : FetchState) (m : FMsg) : StepOut :=
  if env.queryAll && !(env.uidList.contains m.uid) then
    .next { st0 with lastUid := some m.uid }
  else if env.metadataOnly && !(env.markAsSeen && env.flagsExist && !m.seen) then
    .next (streamUpd env { st0 with lastUid := some m.uid } m)
  else if !(env.markAsSeen && env.flagsExist && !m.seen) then
    flushStep env (pushOp (streamUpd env { st0 with lastUid := some m.uid } m) m)
  else
    flushStep env (streamUpd env { st0 with lastUid := some m.uid } m)

/-- The state carried by either `StepOut` constructor. -/
def stepOutSt : StepOut → FetchState
  | .next s => s
  | .stop s => s

/-- The state a row step ends in, whether or not it broke the loop. -/
def stepSt (env : FetchEnv) (st : FetchState) (m : FMsg) : FetchState :=
  stepOutSt (stepRow env st m)

/-- Folding the row step over a list of converted messages. -/
def stepAll (env : FetchEnv) (st : FetchState) (xs : List FMsg) : FetchState :=
  xs.foldl (stepSt env) st

/-- How one pass over the query result ends: fall off the end or break
(`done`), break into the recursive resumption (`resumePage`, the
`count === MAX_PAGE_SIZE` missing-row branch), or throw a cooperative
abort. -/
inductive PassOut where
  | done (st : FetchState)
  | resumePage (st : FetchState)
  | aborted (shutdownAbort : Bool) (st : FetchState)
  deriving DecidableEq, Repr

/-- One pass of the row loop (lines 1109–1318).  `count` is the local
processed-row counter, zero at the start of every `getMessages`
invocation.  The shutdown and socket checks run for every row before the
`!message` test; a missing row breaks, resuming only when exactly
`MAX_PAGE_SIZE` rows were already processed in this pass. -/
def onePass (env : FetchEnv) : FetchState → Nat → List (Option FMsg) → PassOut
  | st, _, [] => .done st
  | st, count, r :: rs =>
    if env.shutdown then .aborted true st
    else if env.socketOpen = false then .aborted false st
    else
      match r with
      | none => if count == MAX_PAGE_SIZE then .resumePage st else .done st
      | some m =>
        match stepRow env st m with
        | .next st' => onePass env st' (count + 1) rs
        | .stop st' => .done st'

/-- Result of `getMessages`: the returned accumulator, a thrown
cooperative abort (`ServerShutdownError` / `SocketError`, carrying the
state reached for observation), or fuel exhaustion (`spun`, a model
artifact standing for an unbounded chain of resumptions). -/
inductive FetchOut where
  | ok (st : FetchState)
  | errShutdown (st : FetchState)
  | errSocket (st : FetchState)
  | spun (st : FetchState)
  deriving DecidableEq, Repr

/-- `getMessages` (lines 992–1328): run one pass over the current query
result; on the resumption branch re-run the query from `lastUid` with
the accumulated state carried forward and a fresh row counter. -/
def fetchGo (env : FetchEnv) (fuel : Nat) (st : FetchState)
    (rows : List (Option FMsg)) : FetchOut :=
  match onePass env st 0 rows with
  | .done st' => .ok st'
  | .aborted true st' => .errShutdown st'
  | .aborted false st' => .errSocket st'
  | .resumePage st' =>
    match fuel with
    | 0 => .spun st'
    | f + 1 => fetchGo env f st' (env.requery st'.lastUid)

/-- The streamed uids visible in any `getMessages` outcome. -/
def FetchOut.state : FetchOut → FetchState
  | .ok st => st
  | .errShutdown st => st
  | .errSocket st => st
  | .spun st => st

/-- How `onFetch` fails: a propagated cooperative abort, a rejected
final partial bulk flush (line 1383, inside the outer try), or the
fuel artifact. -/
inductive FetchFail where
  | serverShutdown
  | socketClosed
  | finalFlush
  | spun
  deriving DecidableEq, Repr

/-- The observable success of `onFetch`: the callback's
`(successful, {rowCount, totalBytes})` plus the recorded observations
(all `Messages.bulkWrite` batches including the final partial one, all
queued ops, streamed uids, `fire` count). -/
structure OnFetchOk where
  successful : Bool
  rowCount : Nat
  totalBytes : Nat
  streamed : List Nat
  allFlushes : List (List (Nat × Nat))
  pushed : List (Nat × Nat)
  fires : Nat
  deriving DecidableEq, Repr

/-- The tail of `onFetch` after `getMessages` returned (lines
1392–1410): flush the remaining journal entries through `addEntries`
(failure caught and logged) and `fire`, then report
`(null, successful, stats)`. -/
def finishEntries (env : FetchEnv) (st : FetchState)
    (allFlushes : List (List (Nat × Nat))) : Except FetchFail OnFetchOk :=
  let fires := if st.entries.isEmpty then st.fires
    else if env.entryFail st.entryIdx then st.fires
    else st.fires + 1
  .ok { successful := st.successful, rowCount := st.rowCount
        totalBytes := st.totalBytes, streamed := st.streamed
        allFlushes := allFlushes, pushed := st.pushed, fires := fires }

/-- `onFetch` (lines 1330–1420): run `getMessages` from the initial
accumulator; flush the remaining partial `bulkWrite` batch (a rejection
here propagates to the outer catch and fails the command); flush the
remaining journal entries best-effort; report the result.  Cooperative
aborts propagate as errors. -/
def onFetch (env : FetchEnv) (fuel : Nat)
    (rows : List (Option FMsg)) : Except FetchFail OnFetchOk :=
  match fetchGo env fuel initFetchState rows with
  | .errShutdown _ => .error .serverShutdown
  | .errSocket _ => .error .socketClosed
  | .spun _ => .error .spun
  | .ok st =>
    if st.bulkWrite.isEmpty then finishEntries env st st.flushes
    else if env.flushFail st.flushIdx then .error .finalFlush
    else finishEntries env { st with flushIdx := st.flushIdx + 1 }
      (st.flushes ++ [st.bulkWrite])

/-- The state carried by any `PassOut` constructor. -/
def passOutSt : PassOut → FetchState
  | .done s => s
  | .resumePage s => s
  | .aborted _ s => s

/-- Whether a row survives the full-range snapshot filter (line 1176):
kept unless the fetch is full-range and the uid is missing from the
session's `uidList` snapshot. -/
def keepRow (env : FetchEnv) (m : FMsg) : Bool :=
  !(env.queryAll && !(env.uidList.contains m.uid))

/-- The no-drop bookkeeping invariant: every op ever queued is either in
an already-flushed batch or still in the in-flight batch. -/
def invFB (s : FetchState) : Prop :=
  s.flushes.flatten ++ s.bulkWrite = s.pushed

/-- Observation extractor for a finished `onFetch`: the sizes of the
batched `Messages.bulkWrite` calls in order, and how many flag-update
ops were queued overall. -/
def onFetchObs : Except FetchFail OnFetchOk → Option (List Nat × Nat)
  | .ok o => some (o.allFlushes.map List.length, o.pushed.length)
  | .error _ => none

/-- Fetch environment of the C4 scenario: a non-full-range fetch with
`markAsSeen` off, flags projected, a healthy socket and store, so every
streamed message queues a flag update. -/
def fetchEnv301 : FetchEnv :=
  { messagesLen := 0, uidList := [1], markAsSeen := false, metadataOnly := false
    flagsExist := true, shutdown := false, socketOpen := true
    respSize := fun _ => 1, flushFail := fun _ => false, entryFail := fun _ => false
    requery := fun _ => [] }

/-- The 301 messages of the C4 scenario, uids 1..301, none seen. -/
def msgs301 : List FMsg := (List.range 301).map fun i => ⟨i + 1, i + 1, false⟩

/-- Fetch environment of the C5 witness: first bulk flush rejects. -/
def fetchEnvC5 : FetchEnv :=
  { fetchEnv301 with flushFail := fun k => k == 0 }

/-- A starting state for the C5 witness with 149 ops already queued, so
the next eligible row trips the threshold flush. -/
def stC5 : FetchState :=
  { initFetchState with bulkWrite := (List.range 149).map (fun i => (i, i))
                        pushed := (List.range 149).map (fun i => (i, i)) }

/-- The row that triggers the failing flush in the C5 witness. -/
def mC5 : FMsg := ⟨500, 500, false⟩

/-- The state the C5 witness run breaks with. -/
def stC5x : FetchState := stepOutSt (stepRow fetchEnvC5 stC5 mC5)

/-- First page of the C3 witness: exactly `MAX_PAGE_SIZE` rows. -/
def firstC3 : List FMsg := (List.range MAX_PAGE_SIZE).map fun i => ⟨i + 1, i + 1, false⟩

/-- Remainder returned by the resumed query in the C3 witness. -/
def restC3 : List FMsg := [⟨9000, 9000, false⟩]

/-- Fetch environment of the C3 witness: metadata-only and healthy, with
the resumed query returning `restC3`. -/
def fetchEnvC3 : FetchEnv :=
  { messagesLen := 0, uidList := [1], markAsSeen := false, metadataOnly := true
    flagsExist := true, shutdown := false, socketOpen := true
    respSize := fun _ => 1, flushFail := fun _ => false, entryFail := fun _ => false
    requery := fun _ => restC3.map some }

/-- Fetch environment of the C2 witness: a full-range fetch whose
snapshot is `[1, 2]`. -/
def fetchEnvC2 : FetchEnv :=
  { messagesLen := 2, uidList := [1, 2], markAsSeen := false, metadataOnly := false
    flagsExist := true, shutdown := false, socketOpen := true
    respSize := fun _ => 1, flushFail := fun _ => false, entryFail := fun _ => false
    requery := fun _ => [] }

/-! ## Supporting lemmas: fetch pipeline -/

/-- A broken (`.stop`) flush step can only come from a rejected bulk
write at the current call index. -/
theorem flushStep_stop (env : FetchEnv) (s s' : FetchState)
    (h : flushStep env s = .stop s') : env.flushFail s.flushIdx = true := by
  unfold flushStep flushEntries at h
  split at h
  · split at h
    · assumption
    · split at h
      · split at h <;> simp at h
      · simp at h
  · simp at h

/-- Shape of the state a broken flush step ends in: batches discarded,
`successful` cleared, a fatal log recorded, call index advanced. -/
theorem flushStep_stop_eq (env : FetchEnv) (s s' : FetchState)
    (h : flushStep env s = .stop s') :
    s' = { s with bulkWrite := [], entries := [], successful := false
                  flushIdx := s.flushIdx + 1, fatalLogs := s.fatalLogs + 1 } := by
  unfold flushStep flushEntries at h
  split at h
  · split at h
    · injection h with h
      exact h.symm
    · split at h
      · split at h <;> simp at h
      · simp at h
  · simp at h

/-- A broken row step can only come from a rejected bulk write at the
state's current call index. -/
theorem stepRow_stop_flush (env : FetchEnv) (st : FetchState) (m : FMsg)
    (s : FetchState) (h : stepRow env st m = .stop s) :
    env.flushFail st.flushIdx = true := by
  unfold stepRow at h
  split at h
  · simp at h
  split at h
  · simp at h
  split at h
  · have := flushStep_stop env _ s h
    simpa [pushOp, streamUpd] using this
  · have := flushStep_stop env _ s h
    simpa [streamUpd] using this

/-- Under a healthy store at the current call index, a row step never
breaks the loop. -/
theorem stepRow_next (env : FetchEnv) (st : FetchState) (m : FMsg)
    (hfl : env.flushFail st.flushIdx = false) :
    stepRow env st m = .next (stepSt env st m) := by
  cases h : stepRow env st m with
  | next s => simp [stepSt, stepOutSt, h]
  | stop s =>
    have := stepRow_stop_flush env st m s h
    rw [hfl] at this
    exact absurd this (by simp)

/-- The flush step never touches what was already streamed. -/
theorem flushStep_streamed (env : FetchEnv) (s : FetchState) :
    (stepOutSt (flushStep env s)).streamed = s.streamed := by
  unfold flushStep flushEntries
  split
  · split
    · rfl
    · split
      · split <;> rfl
      · rfl
  · rfl

/-- What one row step streams: nothing when the snapshot filter skips
the row, exactly its uid otherwise. -/
theorem stepSt_streamed (env : FetchEnv) (st : FetchState) (m : FMsg) :
    (stepSt env st m).streamed
      = st.streamed ++ (if keepRow env m then [m.uid] else []) := by
  cases hb : (env.queryAll && !(env.uidList.contains m.uid)) with
  | true =>
    have hk : keepRow env m = false := by
      unfold keepRow
      rw [hb]
      rfl
    rw [hk]
    unfold stepSt stepRow
    rw [if_pos hb]
    simp [stepOutSt]
  | false =>
    have hk : keepRow env m = true := by
      unfold keepRow
      rw [hb]
      rfl
    rw [hk]
    unfold stepSt stepRow
    rw [if_neg (show ¬((env.queryAll && !(env.uidList.contains m.uid)) = true) by
      rw [hb]
      exact Bool.false_ne_true)]
    split
    · simp [stepOutSt, streamUpd]
    · split
      · rw [flushStep_streamed]
        simp [pushOp, streamUpd]
      · rw [flushStep_streamed]
        simp [streamUpd]

/-- What a fold of row steps streams: the uids of the rows that survive
the snapshot filter, in order. -/
theorem stepAll_streamed (env : FetchEnv) (xs : List FMsg) :
    ∀ st : FetchState,
      (stepAll env st xs).streamed
        = st.streamed ++ (xs.filter (keepRow env)).map (fun m => m.uid) := by
  induction xs with
  | nil =>
    intro st
    simp [stepAll]
  | cons x xs ih =>
    intro st
    have hc : stepAll env st (x :: xs) = stepAll env (stepSt env st x) xs := rfl
    rw [hc, ih, stepSt_streamed]
    by_cases hk : keepRow env x = true <;>
      simp [hk, List.filter_cons]

/-- One loop iteration on a converted row, under healthy store and no
abort: step the state, bump the counter. -/
theorem onePass_cons_some (env : FetchEnv) (hsh : env.shutdown = false)
    (hso : env.socketOpen = true) (st : FetchState) (count : Nat) (m : FMsg)
    (rs : List (Option FMsg)) (hfl : env.flushFail st.flushIdx = false) :
    onePass env st count (some m :: rs)
      = onePass env (stepSt env st m) (count + 1) rs := by
  simp [onePass, hsh, hso, stepRow_next env st m hfl]

/-- Processing an all-converted prefix of the row list walks the fold of
row steps, advancing the row counter once per row, provided the store is
healthy and no abort flag is set. -/
theorem onePass_append (env : FetchEnv) (hsh : env.shutdown = false)
    (hso : env.socketOpen = true) (hfl : ∀ k, env.flushFail k = false)
    (xs : List FMsg) :
    ∀ (ys : List (Option FMsg)) (st : FetchState) (count : Nat),
      onePass env st count (xs.map some ++ ys)
        = onePass env (stepAll env st xs) (count + xs.length) ys := by
  induction xs with
  | nil =>
    intro ys st count
    simp [stepAll]
  | cons x xs ih =>
    intro ys st count
    show onePass env st count (some x :: (xs.map some ++ ys)) = _
    rw [onePass_cons_some env hsh hso st count x _ (hfl _),
      ih ys (stepSt env st x) (count + 1),
      show count + 1 + xs.length = count + (xs.length + 1) by omega]
    rfl

/-- A query result in which every row converts yields the fold of row
steps, with no resumption. -/
theorem fetchGo_allSome (env : FetchEnv) (hsh : env.shutdown = false)
    (hso : env.socketOpen = true) (hfl : ∀ k, env.flushFail k = false)
    (fuel : Nat) (st : FetchState) (xs : List FMsg) :
    fetchGo env fuel st (xs.map some) = .ok (stepAll env st xs) := by
  have h := onePass_append env hsh hso hfl xs [] st 0
  rw [List.append_nil] at h
  unfold fetchGo
  rw [h]
  rfl

/-- The resumption path: a row failing to convert right after exactly
`MAX_PAGE_SIZE` processed rows re-queries from the carried state and the
run continues over the re-queried rows exactly as an uninterrupted fold. -/
theorem fetchGo_resume (env : FetchEnv) (hsh : env.shutdown = false)
    (hso : env.socketOpen = true) (hfl : ∀ k, env.flushFail k = false)
    (first rest : List FMsg) (junk : List (Option FMsg)) (st : FetchState)
    (fuel : Nat)
    (hreq : env.requery (stepAll env st first).lastUid = rest.map some)
    (hlen : first.length = MAX_PAGE_SIZE) :
    fetchGo env (fuel + 1) st (first.map some ++ none :: junk)
      = .ok (stepAll env st (first ++ rest)) := by
  have hpass : onePass env (stepAll env st first) (0 + first.length) (none :: junk)
      = .resumePage (stepAll env st first) := by
    simp [onePass, hsh, hso, hlen]
  unfold fetchGo
  rw [onePass_append env hsh hso hfl first (none :: junk) st 0, hpass]
  show fetchGo env fuel (stepAll env st first)
      (env.requery (stepAll env st first).lastUid) = _
  rw [hreq, fetchGo_allSome env hsh hso hfl fuel (stepAll env st first) rest]
  simp only [stepAll, List.foldl_append]

/-- Shape of the state a broken row step ends in: the response for the
row was already streamed; the batches are discarded, `successful`
cleared, one fatal log recorded, and nothing new was flushed. -/
theorem stepRow_stop_fields (env : FetchEnv) (st : FetchState) (m : FMsg)
    (s : FetchState) (h : stepRow env st m = .stop s) :
    s.successful = false ∧ s.bulkWrite = [] ∧ s.entries = [] ∧
    s.fatalLogs = st.fatalLogs + 1 ∧ s.streamed = st.streamed ++ [m.uid] ∧
    s.flushes = st.flushes := by
  unfold stepRow at h
  split at h
  · simp at h
  split at h
  · simp at h
  split at h
  · have heq := flushStep_stop_eq env _ s h
    subst heq
    simp [pushOp, streamUpd]
  · have heq := flushStep_stop_eq env _ s h
    subst heq
    simp [streamUpd]

/-- Anything a row step streams beyond what was already streamed lies in
the snapshot, on a full-range fetch. -/
theorem stepSt_streamed_mem (env : FetchEnv) (hq : env.queryAll = true)
    (st : FetchState) (m : FMsg) (u : Nat)
    (hu : u ∈ (stepSt env st m).streamed) :
    u ∈ st.streamed ∨ u ∈ env.uidList := by
  rw [stepSt_streamed] at hu
  rcases List.mem_append.mp hu with h1 | h2
  · exact .inl h1
  · right
    by_cases hk : keepRow env m = true
    · rw [if_pos hk] at h2
      have hu2 : u = m.uid := by simpa using h2
      subst hu2
      unfold keepRow at hk
      rw [hq] at hk
      simpa using hk
    · rw [if_neg hk] at h2
      simp at h2

/-- On a full-range fetch, every uid a pass streams beyond the initial
state lies in the session's snapshot — whatever the conversion failures,
store outcomes or abort flags. -/
theorem onePass_streamed_mem (env : FetchEnv) (hq : env.queryAll = true) :
    ∀ (rows : List (Option FMsg)) (st : FetchState) (count : Nat) (u : Nat),
      u ∈ (passOutSt (onePass env st count rows)).streamed →
      u ∈ st.streamed ∨ u ∈ env.uidList := by
  intro rows
  induction rows with
  | nil =>
    intro st count u hu
    exact .inl (by simpa [onePass, passOutSt] using hu)
  | cons r rs ih =>
    intro st count u hu
    cases r with
    | none =>
      simp only [onePass] at hu
      split at hu
      · exact .inl (by simpa [passOutSt] using hu)
      split at hu
      · exact .inl (by simpa [passOutSt] using hu)
      split at hu
      · exact .inl (by simpa [passOutSt] using hu)
      · exact .inl (by simpa [passOutSt] using hu)
    | some m =>
      simp only [onePass] at hu
      split at hu
      · exact .inl (by simpa [passOutSt] using hu)
      split at hu
      · exact .inl (by simpa [passOutSt] using hu)
      cases hs : stepRow env st m with
      | next s =>
        rw [hs] at hu
        have hss : s = stepSt env st m := by simp [stepSt, stepOutSt, hs]
        have hrec := ih s (count + 1) u (by simpa [passOutSt] using hu)
        rcases hrec with h1 | h2
        · rw [hss] at h1
          exact stepSt_streamed_mem env hq st m u h1
        · exact .inr h2
      | stop s =>
        rw [hs] at hu
        have hss : s = stepSt env st m := by simp [stepSt, stepOutSt, hs]
        have h1 : u ∈ s.streamed := by simpa [passOutSt] using hu
        rw [hss] at h1
        exact stepSt_streamed_mem env hq st m u h1

/-- Snapshot isolation: on a full-range fetch, every uid `getMessages`
streams beyond the initial state lies in the session's pre-fetch
`uidList`, across resumptions, aborts and store failures. -/
theorem fetchGo_streamed_mem (env : FetchEnv) (hq : env.queryAll = true) :
    ∀ (fuel : Nat) (st : FetchState) (rows : List (Option FMsg)) (u : Nat),
      u ∈ (fetchGo env fuel st rows).state.streamed →
      u ∈ st.streamed ∨ u ∈ env.uidList := by
  intro fuel
  induction fuel with
  | zero =>
    intro st rows u hu
    unfold fetchGo at hu
    cases hp : onePass env st 0 rows with
    | done s =>
      rw [hp] at hu
      refine onePass_streamed_mem env hq rows st 0 u ?_
      rw [hp]
      simpa [FetchOut.state, passOutSt] using hu
    | resumePage s =>
      rw [hp] at hu
      refine onePass_streamed_mem env hq rows st 0 u ?_
      rw [hp]
      simpa [FetchOut.state, passOutSt] using hu
    | aborted b s =>
      rw [hp] at hu
      refine onePass_streamed_mem env hq rows st 0 u ?_
      rw [hp]
      cases b <;> simpa [FetchOut.state, passOutSt] using hu
  | succ f ih =>
    intro st rows u hu
    unfold fetchGo at hu
    cases hp : onePass env st 0 rows with
    | done s =>
      rw [hp] at hu
      refine onePass_streamed_mem env hq rows st 0 u ?_
      rw [hp]
      simpa [FetchOut.state, passOutSt] using hu
    | resumePage s =>
      rw [hp] at hu
      have hrec := ih s (env.requery s.lastUid) u (by simpa using hu)
      rcases hrec with h1 | h2
      · refine onePass_streamed_mem env hq rows st 0 u ?_
        rw [hp]
        simpa [passOutSt] using h1
      · exact .inr h2
    | aborted b s =>
      rw [hp] at hu
      refine onePass_streamed_mem env hq rows st 0 u ?_
      rw [hp]
      cases b <;> simpa [FetchOut.state, passOutSt] using hu

/-- A successful flush step keeps the no-drop bookkeeping invariant. -/
theorem flushStep_inv (env : FetchEnv) (s : FetchState)
    (hfl : env.flushFail s.flushIdx = false) (h : invFB s) :
    invFB (stepOutSt (flushStep env s)) := by
  unfold invFB at h ⊢
  unfold flushStep flushEntries
  split
  · rw [if_neg (show ¬(env.flushFail s.flushIdx = true) by
      rw [hfl]
      exact Bool.false_ne_true)]
    split
    · split
      · simp only [stepOutSt, List.flatten_append]
        simpa using h
      · simp only [stepOutSt, List.flatten_append]
        simpa using h
    · simp only [stepOutSt, List.flatten_append]
      simpa using h
  · simpa [stepOutSt] using h

/-- A row step keeps the no-drop bookkeeping invariant under a healthy
store. -/
theorem stepSt_inv (env : FetchEnv) (st : FetchState) (m : FMsg)
    (hfl : ∀ k, env.flushFail k = false) (h : invFB st) :
    invFB (stepSt env st m) := by
  unfold stepSt stepRow
  split
  · simpa [invFB, stepOutSt] using h
  split
  · simpa [invFB, stepOutSt, streamUpd] using h
  split
  · apply flushStep_inv env _ (hfl _)
    unfold invFB at h ⊢
    simpa [pushOp, streamUpd, List.append_assoc] using congrArg (· ++ [bulkOp m]) h
  · apply flushStep_inv env _ (hfl _)
    unfold invFB at h ⊢
    simpa [streamUpd] using h

/-- A pass keeps the no-drop bookkeeping invariant under a healthy
store. -/
theorem onePass_inv (env : FetchEnv) (hfl : ∀ k, env.flushFail k = false) :
    ∀ (rows : List (Option FMsg)) (st : FetchState) (count : Nat),
      invFB st → invFB (passOutSt (onePass env st count rows)) := by
  intro rows
  induction rows with
  | nil =>
    intro st count h
    simpa [onePass, passOutSt] using h
  | cons r rs ih =>
    intro st count h
    cases r with
    | none =>
      simp only [onePass]
      split
      · simpa [passOutSt] using h
      split
      · simpa [passOutSt] using h
      split
      · simpa [passOutSt] using h
      · simpa [passOutSt] using h
    | some m =>
      simp only [onePass]
      split
      · simpa [passOutSt] using h
      split
      · simpa [passOutSt] using h
      rw [stepRow_next env st m (hfl _)]
      show invFB (passOutSt (onePass env (stepSt env st m) (count + 1) rs))
      exact ih (stepSt env st m) (count + 1) (stepSt_inv env st m hfl h)

/-- A whole `getMessages` run keeps the no-drop bookkeeping invariant
under a healthy store. -/
theorem fetchGo_inv (env : FetchEnv) (hfl : ∀ k, env.flushFail k = false) :
    ∀ (fuel : Nat) (st : FetchState) (rows : List (Option FMsg)),
      invFB st → invFB (fetchGo env fuel st rows).state := by
  intro fuel
  induction fuel with
  | zero =>
    intro st rows h
    unfold fetchGo
    cases hp : onePass env st 0 rows with
    | done s =>
      have hh := onePass_inv env hfl rows st 0 h
      rw [hp] at hh
      simpa [FetchOut.state, passOutSt] using hh
    | resumePage s =>
      have hh := onePass_inv env hfl rows st 0 h
      rw [hp] at hh
      simpa [FetchOut.state, passOutSt] using hh
    | aborted b s =>
      have hh := onePass_inv env hfl rows st 0 h
      rw [hp] at hh
      cases b <;> simpa [FetchOut.state, passOutSt] using hh
  | succ f ih =>
    intro st rows h
    unfold fetchGo
    cases hp : onePass env st 0 rows with
    | done s =>
      have hh := onePass_inv env hfl rows st 0 h
      rw [hp] at hh
      simpa [FetchOut.state, passOutSt] using hh
    | resumePage s =>
      have hh := onePass_inv env hfl rows st 0 h
      rw [hp] at hh
      exact ih s (env.requery s.lastUid) (by simpa [passOutSt] using hh)
    | aborted b s =>
      have hh := onePass_inv env hfl rows st 0 h
      rw [hp] at hh
      cases b <;> simpa [FetchOut.state, passOutSt] using hh

/-! ## Supporting lemmas: notifier -/

/-- The mailbox-store update of `findOneAndUpdateInc` never touches
messages. -/
theorem findOneAndUpdateInc_messages (st : NStore) (mid : Nat) :
    (findOneAndUpdateInc st mid).2.messages = st.messages := by
  unfold findOneAndUpdateInc
  split <;> rfl

/-- The mailbox-store update of `findOneAndUpdateInc` never touches the
journal. -/
theorem findOneAndUpdateInc_journal (st : NStore) (mid : Nat) :
    (findOneAndUpdateInc st mid).2.journal = st.journal := by
  unfold findOneAndUpdateInc
  split <;> rfl

/-- Replacing every id-matching row by `mb'` makes `find?` on that id
return `mb'`, provided a match existed and `mb'` keeps the id. -/
theorem find?_map_update (l : List NMailbox) (mid : Nat) (mb mb' : NMailbox)
    (hfind : l.find? (fun x => x.id == mid) = some mb) (hid : (mb'.id == mid) = true) :
    (l.map fun x => if x.id == mid then mb' else x).find?
      (fun x => x.id == mid) = some mb' := by
  induction l with
  | nil => simp at hfind
  | cons a l ih =>
    simp only [List.map_cons]
    by_cases h : (a.id == mid) = true
    · rw [@List.find?_cons_of_pos NMailbox (fun x => x.id == mid)
        (if (a.id == mid) = true then mb' else a) _ (by simp [h, hid])]
      simp [h]
    · rw [@List.find?_cons_of_neg NMailbox (fun x => x.id == mid)
        (if (a.id == mid) = true then mb' else a) _ (by simp [h])]
      apply ih
      rwa [@List.find?_cons_of_neg NMailbox (fun x => x.id == mid) a l h] at hfind

/-- Inversion for a completed `addEntries`: the result is `finishAdd`
applied at the normalised entries, their updated set, the mailbox
document in hand, and a store whose messages and journal are untouched
so far. -/
theorem addEntries_done (sess : NSession) (st : NStore) (mailboxId : Nat)
    (arg : EntriesArg) (now : Nat) (d : AddDone)
    (h : addEntries sess st mailboxId arg now = .ok (.done d)) :
    ∃ es mailbox st1,
      entriesOf arg = some es ∧
      st1.messages = st.messages ∧ st1.journal = st.journal ∧
      d = finishAdd es (updatedOf es) mailbox st1 now := by
  unfold addEntries at h
  split at h
  · simp at h
  split at h
  · simp at h
  split at h
  · simp at h
  split at h
  · simp at h
  case _ es heq =>
    split at h
    · simp at h
    split at h
    case _ _ heq2 => simp at h
    case _ mailbox st1 heq2 =>
      have hmsg : st1.messages = st.messages := by
        by_cases hc : (updatedOf es).isEmpty = true
        · rw [if_pos hc] at heq2
          injection heq2 with h1 h2
          rw [← h2]
        · rw [if_neg hc] at heq2
          have h2 : st1 = (findOneAndUpdateInc st mailboxId).2 := by
            rw [heq2]
          rw [h2]
          exact findOneAndUpdateInc_messages st mailboxId
      have hj : st1.journal = st.journal := by
        by_cases hc : (updatedOf es).isEmpty = true
        · rw [if_pos hc] at heq2
          injection heq2 with h1 h2
          rw [← h2]
        · rw [if_neg hc] at heq2
          have h2 : st1 = (findOneAndUpdateInc st mailboxId).2 := by
            rw [heq2]
          rw [h2]
          exact findOneAndUpdateInc_journal st mailboxId
      simp only [Except.ok.injEq, AddOut.done.injEq] at h
      exact ⟨es, mailbox, st1, heq, hmsg, hj, h.symm⟩

/-! ## Claim theorems: notifier -/

/-- C9: `releaseConnection` never raises and always reports success
`fn(null, true)` — for every input, including a second call on an
already-closed session (any `RCData` with `closeThrows` arbitrary); it
is a no-op for a never-authenticated session; store-close errors and
counter-decrement failures are swallowed and logged.  The embedding is a
total function into the callback observation, so "never raises" is
expressed by the callback fields being `(none, true)` on every input. -/
theorem claim_C9 (d : RCData) :
    (releaseConnection d).cbErr = none ∧
    (releaseConnection d).cbOk = true ∧
    (d.authenticated = false →
      releaseConnection d = { cbErr := none, cbOk := true, dbClosed := false, fatalLogs := 0 }) ∧
    (d.authenticated = true → d.hasCloseFn = true → d.closeThrows = true →
      1 ≤ (releaseConnection d).fatalLogs) := by
  unfold releaseConnection
  rcases d with ⟨a, hc, ct, dr⟩
  cases a <;> cases hc <;> cases ct <;> cases dr <;> simp

/-- Witness for C9 at a concrete already-closed, twice-released session:
both the close error and the decrement error are swallowed and success
is reported. -/
theorem claim_C9_witness :
    (releaseConnection ⟨true, true, true, true⟩).cbErr = none ∧
    (releaseConnection ⟨true, true, true, true⟩).cbOk = true ∧
    1 ≤ (releaseConnection ⟨true, true, true, true⟩).fatalLogs := by
  obtain ⟨h1, h2, _, h4⟩ := claim_C9 ⟨true, true, true, true⟩
  exact ⟨h1, h2, h4 rfl rfl rfl⟩

/-- C10: for a valid session, a truthy non-array `entries` argument is
wrapped into a one-element array and processed identically to that
array, returning `1` on success; a falsy or empty-array argument yields
the no-op result (`false`). -/
theorem claim_C10 (sess : NSession) (st : NStore) (mailboxId : Nat)
    (e : NEntry) (now : Nat) (hv : sess.valid = true) :
    (addEntries sess st mailboxId (.single e) now
      = addEntries sess st mailboxId (.array [e]) now) ∧
    (∀ d, addEntries sess st mailboxId (.single e) now = .ok (.done d) → d.ret = 1) ∧
    addEntries sess st mailboxId .null now = .ok .noop ∧
    addEntries sess st mailboxId (.array []) now = .ok .noop := by
  have hb : sess.hasDb = true ∧ sess.hasWsp = true ∧ sess.hasPassword = true := by
    simpa [NSession.valid, Bool.and_eq_true, and_assoc] using hv
  refine ⟨rfl, ?_, ?_, ?_⟩
  · intro d hd
    obtain ⟨es, mailbox, st1, hes, -, -, hfin⟩ :=
      addEntries_done sess st mailboxId (.single e) now d hd
    have : es = [e] := by simpa [entriesOf] using hes.symm
    subst this
    simp [hfin, finishAdd]
  · simp [addEntries, entriesOf, hb.1, hb.2.1, hb.2.2]
  · simp [addEntries, entriesOf, hb.1, hb.2.1, hb.2.2]

/-- Witness for C10 at a concrete session, store and entry. -/
theorem claim_C10_witness :
    (addEntries ⟨true, true, true⟩ ⟨[⟨1, 5⟩], [], []⟩ 1 (.single ⟨none, none, none, none⟩) 0
      = addEntries ⟨true, true, true⟩ ⟨[⟨1, 5⟩], [], []⟩ 1 (.array [⟨none, none, none, none⟩]) 0) ∧
    addEntries ⟨true, true, true⟩ ⟨[⟨1, 5⟩], [], []⟩ 1 .null 0 = .ok .noop := by
  obtain ⟨h1, -, h3, -⟩ :=
    claim_C10 ⟨true, true, true⟩ ⟨[⟨1, 5⟩], [], []⟩ 1 ⟨none, none, none, none⟩ 0 rfl
  exact ⟨h1, h3⟩

/-- C1: the concrete scenario — `addEntries` with one entry referencing
message `m1` (no modseq) on mailbox `M` with `modifyIndex = 5` and
`m1.modseq = 3` yields `modifyIndex = 6`, `m1.modseq = 6`, and exactly
one journal entry stamped `modseq = 6` — and, in general, whenever the
updated set is non-empty, `addEntries` increments the mailbox's
`modifyIndex` by exactly one and stamps every entry lacking a modseq
with the new value, appending exactly the stamped entries to the
journal. -/
theorem claim_C1 :
    (addEntries ⟨true, true, true⟩ ⟨[⟨1, 5⟩], [⟨10, 1, 3⟩], []⟩ 1
        (.array [⟨none, none, none, some 10⟩]) 99
      = .ok (.done
          { store := ⟨[⟨1, 6⟩], [⟨10, 1, 6⟩], [⟨some 6, some 99, some 1, some 10⟩]⟩
            updates := [(10, 6)]
            appended := [⟨some 6, some 99, some 1, some 10⟩]
            modseq := 6
            ret := 1 })) ∧
    ∀ (sess : NSession) (st : NStore) (mailboxId now : Nat) (arg : EntriesArg)
      (es : List NEntry) (mb : NMailbox),
      sess.valid = true → entriesOf arg = some es → updatedOf es ≠ [] →
      mailboxId ≠ 0 →
      st.mailboxes.find? (fun x => x.id == mailboxId) = some mb →
      ∃ d, addEntries sess st mailboxId arg now = .ok (.done d) ∧
        d.modseq = mb.modifyIndex + 1 ∧
        d.store.mailboxes.find? (fun x => x.id == mailboxId)
          = some ⟨mb.id, mb.modifyIndex + 1⟩ ∧
        d.store.journal = st.journal ++ d.appended ∧
        d.appended.length = es.length ∧
        (∀ (i : Nat) (h1 : i < es.length) (h2 : i < d.appended.length),
          truthyNat (es.get ⟨i, h1⟩).modseq = false →
          (d.appended.get ⟨i, h2⟩).modseq = some d.modseq) ∧
        d.ret = es.length := by
  constructor
  · rfl
  intro sess st mailboxId now arg es mb hv hes hupd hmid hfind
  have hb : sess.hasDb = true ∧ sess.hasWsp = true ∧ sess.hasPassword = true := by
    simpa [NSession.valid, Bool.and_eq_true, and_assoc] using hv
  have hmid' : (mailboxId == 0) = false := by simpa using hmid
  have hne : (updatedOf es).isEmpty = false := by
    simpa [List.isEmpty_iff] using hupd
  have hidmb : (mb.id == mailboxId) = true := by
    have := List.find?_some hfind
    simpa using this
  have hinc : findOneAndUpdateInc st mailboxId
      = (some ⟨mb.id, mb.modifyIndex + 1⟩,
          ⟨st.mailboxes.map
              (fun x => if x.id == mailboxId then ⟨mb.id, mb.modifyIndex + 1⟩ else x),
            st.messages, st.journal⟩) := by
    unfold findOneAndUpdateInc
    rw [hfind]
  have hrun : addEntries sess st mailboxId arg now
      = .ok (.done (finishAdd es (updatedOf es) ⟨mb.id, mb.modifyIndex + 1⟩
          ⟨st.mailboxes.map
              (fun x => if x.id == mailboxId then ⟨mb.id, mb.modifyIndex + 1⟩ else x),
            st.messages, st.journal⟩ now)) := by
    unfold addEntries
    rw [hes]
    simp only [hb.1, hb.2.1, hb.2.2, hmid', hne, hinc]
    simp
  refine ⟨_, hrun, rfl, ?_, rfl, ?_, ?_, rfl⟩
  · exact find?_map_update st.mailboxes mailboxId mb ⟨mb.id, mb.modifyIndex + 1⟩ hfind hidmb
  · simp [finishAdd]
  · intro i h1 h2 hlack
    rw [List.get_eq_getElem] at hlack
    simp only [finishAdd] at h2 ⊢
    rw [List.get_eq_getElem, List.getElem_map]
    simp [stampEntry, hlack]

/-- Witness for the general half of C1, at the concrete scenario store. -/
theorem claim_C1_witness :
    ∃ d, addEntries ⟨true, true, true⟩ ⟨[⟨1, 5⟩], [⟨10, 1, 3⟩], []⟩ 1
        (.array [⟨none, none, none, some 10⟩]) 99 = .ok (.done d) ∧
      d.modseq = 5 + 1 ∧
      d.store.mailboxes.find? (fun x => x.id == 1) = some ⟨1, 5 + 1⟩ ∧
      d.store.journal = [] ++ d.appended ∧
      d.appended.length = [(⟨none, none, none, some 10⟩ : NEntry)].length ∧
      (∀ (i : Nat) (h1 : i < [(⟨none, none, none, some 10⟩ : NEntry)].length)
        (h2 : i < d.appended.length),
        truthyNat (([(⟨none, none, none, some 10⟩ : NEntry)].get ⟨i, h1⟩)).modseq = false →
        (d.appended.get ⟨i, h2⟩).modseq = some d.modseq) ∧
      d.ret = [(⟨none, none, none, some 10⟩ : NEntry)].length :=
  claim_C1.2 ⟨true, true, true⟩ ⟨[⟨1, 5⟩], [⟨10, 1, 3⟩], []⟩ 1 99
    (.array [⟨none, none, none, some 10⟩]) [⟨none, none, none, some 10⟩] ⟨1, 5⟩
    rfl rfl (by decide) (by decide) rfl

/-- C8: `addEntries` never decreases any message's stored modseq — every
corrective update it issues targets a stored message whose modseq was
strictly below the minted value and raises it exactly to that value,
and every message at or above the minted value is left unchanged. -/
theorem claim_C8 (sess : NSession) (st : NStore) (mailboxId : Nat)
    (arg : EntriesArg) (now : Nat) (d : AddDone)
    (h : addEntries sess st mailboxId arg now = .ok (.done d)) :
    (∀ p ∈ d.updates, p.2 = d.modseq ∧
      ∃ m ∈ st.messages, m.id = p.1 ∧ m.modseq < d.modseq) ∧
    d.store.messages.length = st.messages.length ∧
    ∀ (i : Nat) (h1 : i < st.messages.length) (h2 : i < d.store.messages.length),
      (st.messages.get ⟨i, h1⟩).modseq ≤ (d.store.messages.get ⟨i, h2⟩).modseq ∧
      (st.messages.get ⟨i, h1⟩).id = (d.store.messages.get ⟨i, h2⟩).id ∧
      (d.modseq ≤ (st.messages.get ⟨i, h1⟩).modseq →
        d.store.messages.get ⟨i, h2⟩ = st.messages.get ⟨i, h1⟩) := by
  obtain ⟨es, mailbox, st1, -, hmsg, -, hfin⟩ :=
    addEntries_done sess st mailboxId arg now d h
  subst hfin
  obtain ⟨mbs1, msgs1, j1⟩ := st1
  simp only at hmsg
  subst hmsg
  refine ⟨?_, by simp [finishAdd], ?_⟩
  · intro p hp
    simp only [finishAdd, List.mem_map, List.mem_filter] at hp
    obtain ⟨m, ⟨hmem, hbeh⟩, hpm⟩ := hp
    have hlt : m.modseq < mailbox.modifyIndex := by
      simp only [behind, Bool.and_eq_true, decide_eq_true_eq] at hbeh
      exact hbeh.2
    refine ⟨by simp [finishAdd, ← hpm], m, hmem, by simp [← hpm], ?_⟩
    simpa [finishAdd] using hlt
  · intro i h1 h2
    have hget : (finishAdd es (updatedOf es) mailbox ⟨mbs1, st.messages, j1⟩ now).store.messages.get
          ⟨i, h2⟩
        = (fun m => if behind (updatedOf es) mailbox.id mailbox.modifyIndex m
            then { m with modseq := mailbox.modifyIndex } else m)
            (st.messages.get ⟨i, h1⟩) := by
      simp only [finishAdd, List.get_eq_getElem]
      rw [List.getElem_map]
    rw [hget]
    set m := st.messages.get ⟨i, h1⟩ with hm
    by_cases hb : behind (updatedOf es) mailbox.id mailbox.modifyIndex m = true
    · have hlt : m.modseq < mailbox.modifyIndex := by
        simp only [behind, Bool.and_eq_true, decide_eq_true_eq] at hb
        exact hb.2
      simp only [hb, if_true]
      refine ⟨by omega, by trivial, ?_⟩
      intro hle
      simp only [finishAdd] at hle
      omega
    · simp [hb]

/-- Witness for C8 at the concrete C1 scenario. -/
theorem claim_C8_witness :
    (∀ p ∈ [((10 : Nat), (6 : Nat))], p.2 = 6 ∧
      ∃ m ∈ [(⟨10, 1, 3⟩ : NMessage)], m.id = p.1 ∧ m.modseq < 6) ∧
    [(⟨10, 1, 6⟩ : NMessage)].length = [(⟨10, 1, 3⟩ : NMessage)].length := by
  have h := claim_C8 ⟨true, true, true⟩ ⟨[⟨1, 5⟩], [⟨10, 1, 3⟩], []⟩ 1
    (.array [⟨none, none, none, some 10⟩]) 99
    { store := ⟨[⟨1, 6⟩], [⟨10, 1, 6⟩], [⟨some 6, some 99, some 1, some 10⟩]⟩
      updates := [(10, 6)]
      appended := [⟨some 6, some 99, some 1, some 10⟩]
      modseq := 6
      ret := 1 } rfl
  exact ⟨h.1, h.2.1⟩

/-! ## Claim theorems: debounce scheduler and broadcast handling -/

/-- A burst that stays within a 50 ms window keeps one pending record
alive: each pulse re-arms the timer and never trips the 1000 ms
immediate-fire bound, so nothing is emitted during the burst. -/
theorem debRun_window (t0 : Nat) (ts : List Nat) :
    ∀ (k last : Nat),
      (∀ u ∈ ts, t0 ≤ u ∧ u ≤ t0 + 50) → t0 ≤ last → last ≤ t0 + 50 →
      debRun ⟨some ⟨k, t0, last + 100⟩, []⟩ ts
        = ⟨some ⟨k + ts.length, t0, ts.getLastD last + 100⟩, []⟩ := by
  induction ts with
  | nil =>
    intro k last _ _ _
    simp [debRun, List.getLastD]
  | cons u us ih =>
    intro k last hmem h1 h2
    have hu := hmem u (by simp)
    have hne : ¬ (last + 100 ≤ u) := by omega
    have hni : ¬ (t0 + 1000 < u) := by omega
    simp only [debRun]
    have he : debElapse ⟨some ⟨k, t0, last + 100⟩, []⟩ u
        = ⟨some ⟨k, t0, last + 100⟩, []⟩ := by
      simp [debElapse, hne]
    rw [he]
    have hp : debPulse ⟨some ⟨k, t0, last + 100⟩, []⟩ u
        = ⟨some ⟨k + 1, t0, u + 100⟩, []⟩ := by
      simp [debPulse, hni]
    rw [hp]
    rw [ih (k + 1) u (fun v hv => hmem v (by simp [hv])) hu.1 hu.2]
    rw [List.getLastD_cons, List.length_cons,
      show k + 1 + us.length = k + (us.length + 1) by omega]

/-- A burst of pulses pairwise within 50 ms collapses to exactly one
emission, fired 100 ms after the last pulse. -/
theorem debFinal_collapse (t : Nat) (ts : List Nat)
    (hmem : ∀ u ∈ ts, t ≤ u ∧ u ≤ t + 50) :
    (debFinal (t :: ts)).emitted = [ts.getLastD t + 100] := by
  unfold debFinal
  simp only [debRun]
  have he : debElapse debInit t = debInit := by simp [debElapse, debInit]
  have hp : debPulse debInit t = ⟨some ⟨1, t, t + 100⟩, []⟩ := by
    simp [debPulse, debInit]
  rw [he, hp, debRun_window t ts 1 t hmem (Nat.le_refl t) (by omega)]
  simp [debFlush]

/-- Counterexample to C6 as stated: a burst of pulses every 50 ms for
1200 ms (instants 0, 50, …, 1200) produces its first emission at
t = 1050, so no emission occurs within the first 1000 ms — the
immediate-fire test `initial < now - 1000` first trips at the pulse
strictly after one second, not within it. -/
theorem claim_C6_counterexample :
    (debFinal ((List.range 25).map (fun i => i * 50))).emitted = [1050, 1300] ∧
    ∀ e ∈ (debFinal ((List.range 25).map (fun i => i * 50))).emitted, 1000 < e := by
  decide

/-- C6 (amended): the per-key debounce state machine — a pulse with no
pending record creates one (`count = 1`) and arms a 100 ms timer; a
pulse with a pending record cancels its timer and fires immediately
exactly when strictly more than 1000 ms elapsed since the first pulse,
otherwise re-arms a fresh 100 ms timer.  Consequently N pulses within
50 ms of each other collapse to exactly one emitted event once 100 ms of
quiescence elapses, and a burst of pulses every 50 ms for 1200 ms forces
at least one emission within the first 1050 ms (not 1000 ms: the first
forced fire happens at the first pulse strictly after the 1000 ms
bound). -/
theorem claim_C6 :
    (∀ (em : List Nat) (t : Nat),
      debPulse ⟨none, em⟩ t = ⟨some ⟨1, t, t + 100⟩, em⟩) ∧
    (∀ (r : DebRecord) (em : List Nat) (t : Nat), r.initial + 1000 < t →
      debPulse ⟨some r, em⟩ t = ⟨none, em ++ [t]⟩) ∧
    (∀ (r : DebRecord) (em : List Nat) (t : Nat), ¬ (r.initial + 1000 < t) →
      debPulse ⟨some r, em⟩ t = ⟨some ⟨r.count + 1, r.initial, t + 100⟩, em⟩) ∧
    (∀ (t : Nat) (ts : List Nat), (∀ u ∈ ts, t ≤ u ∧ u ≤ t + 50) →
      (debFinal (t :: ts)).emitted = [ts.getLastD t + 100]) ∧
    ∃ e ∈ (debFinal ((List.range 25).map (fun i => i * 50))).emitted, e ≤ 1050 := by
  refine ⟨?_, ?_, ?_, ?_, by decide⟩
  · intro em t
    simp [debPulse]
  · intro r em t h
    simp [debPulse, h]
  · intro r em t h
    simp [debPulse, h]
  · intro t ts hmem
    exact debFinal_collapse t ts hmem

/-- Witness for C6 (amended) at a concrete five-pulse burst inside one
50 ms window: exactly one event, emitted 100 ms after the last pulse. -/
theorem claim_C6_witness :
    (debFinal [7, 12, 20, 40, 57]).emitted = [[12, 20, 40, 57].getLastD 7 + 100] :=
  claim_C6.2.2.2.1 7 [12, 20, 40, 57] (by decide)

/-- Counterexample to C7 as stated: the envelope published by
`fire(alias, 0)` carries the payload `0`, yet the subscriber handler
routes it through the debounce scheduler (`!data.p` tests JS truthiness,
not presence), instead of emitting it immediately. -/
theorem claim_C7_counterexample :
    fire (.jstr "a") (some (.jnum 0)) = .ok ⟨some (.jstr "a"), some (.jnum 0)⟩ ∧
    (⟨some (.jstr "a"), some (.jnum 0)⟩ : BMessage).p.isSome = true ∧
    handleBroadcast "ch" "ch" (some ⟨some (.jstr "a"), some (.jnum 0)⟩)
      = .debounced (.jstr "a") ∧
    BAction.debounced (.jstr "a") ≠ .emitted (.jstr "a") (some (.jnum 0)) := by
  refine ⟨rfl, rfl, rfl, ?_⟩
  decide

/-- C7 (amended): a well-formed envelope received on the shared channel
whose payload is *truthy* is emitted immediately and exactly once to the
listeners registered under its account key and never routed through the
debounce scheduler; an envelope with an absent *or falsy* payload is
routed through the debounce scheduler.  Each locally registered handler
for the key receives an emitted event exactly once. -/
theorem claim_C7 (ch : String) (data : BMessage) (ev : JVal)
    (he : data.e = some ev) (hev : ev.truthy = true) :
    (truthyOpt data.p = true →
      handleBroadcast ch ch (some data) = .emitted ev data.p) ∧
    (truthyOpt data.p = false →
      handleBroadcast ch ch (some data) = .debounced ev) ∧
    ∀ (listeners : List (JVal × Nat)),
      (deliverTo listeners ev).length
        = (listeners.filter (fun l => l.1 == ev)).length := by
  refine ⟨?_, ?_, ?_⟩
  · intro hp
    simp [handleBroadcast, he, hev, hp]
  · intro hp
    simp [handleBroadcast, he, hev, hp]
  · intro listeners
    simp [deliverTo]

/-- Witness for C7 (amended) at a concrete truthy-payload envelope and a
concrete falsy-payload envelope of the same shape. -/
theorem claim_C7_witness :
    handleBroadcast "ch" "ch" (some ⟨some (.jstr "a"), some .jobj⟩)
      = .emitted (.jstr "a") (some .jobj) ∧
    handleBroadcast "ch" "ch" (some ⟨some (.jstr "a"), none⟩)
      = .debounced (.jstr "a") := by
  have h1 := claim_C7 "ch" ⟨some (.jstr "a"), some .jobj⟩ (.jstr "a") rfl rfl
  have h2 := claim_C7 "ch" ⟨some (.jstr "a"), none⟩ (.jstr "a") rfl rfl
  exact ⟨h1.1 rfl, h2.2.1 rfl⟩

/-! ## Claim theorems: fetch pipeline -/

/-- C2: snapshot isolation for full-range fetches.  First conjunct: on a
clean full-range run (healthy store, no aborts, every row converting),
the streamed uids are exactly the uids of the matching rows that belong
to the session's pre-fetch `uidList` snapshot, in order.  Second
conjunct: on any full-range run — whatever the conversion failures,
resumptions (late insertions visible to a re-query), store failures or
aborts — no streamed uid lies outside the snapshot. -/
theorem claim_C2 :
    (∀ (env : FetchEnv) (fuel : Nat) (st : FetchState) (xs : List FMsg),
      env.queryAll = true → env.shutdown = false → env.socketOpen = true →
      (∀ k, env.flushFail k = false) → st.streamed = [] →
      (fetchGo env fuel st (xs.map some)).state.streamed
        = (xs.filter (fun m => env.uidList.contains m.uid)).map (fun m => m.uid)) ∧
    ∀ (env : FetchEnv) (fuel : Nat) (st : FetchState) (rows : List (Option FMsg))
      (u : Nat),
      env.queryAll = true → st.streamed = [] →
      u ∈ (fetchGo env fuel st rows).state.streamed → u ∈ env.uidList := by
  constructor
  · intro env fuel st xs hq hsh hso hfl hst
    rw [fetchGo_allSome env hsh hso hfl fuel st xs]
    show (stepAll env st xs).streamed = _
    rw [stepAll_streamed, hst, List.nil_append]
    congr 1
    apply List.filter_congr
    intro m _
    unfold keepRow
    rw [hq]
    simp
  · intro env fuel st rows u hq hst hu
    rcases fetchGo_streamed_mem env hq fuel st rows u hu with h1 | h2
    · rw [hst] at h1
      simp at h1
    · exact h2

/-- Witness for C2 at a concrete full-range fetch: snapshot `[1, 2]`,
matching rows with uids 1 and 5 (5 inserted after the snapshot), clean
store — exactly uid 1 is streamed; and instantiating the subset half at
the same run. -/
theorem claim_C2_witness :
    ((fetchGo fetchEnvC2 1 initFetchState
        ([⟨1, 1, false⟩, ⟨5, 5, false⟩].map some)).state.streamed
      = ([(⟨1, 1, false⟩ : FMsg), ⟨5, 5, false⟩].filter
          (fun m => fetchEnvC2.uidList.contains m.uid)).map (fun m => m.uid)) ∧
    (1 : Nat) ∈ fetchEnvC2.uidList := by
  constructor
  · exact claim_C2.1 fetchEnvC2 1 initFetchState [⟨1, 1, false⟩, ⟨5, 5, false⟩]
      rfl rfl rfl (fun _ => rfl) rfl
  · exact claim_C2.2 fetchEnvC2 1 initFetchState
      ([⟨1, 1, false⟩, ⟨5, 5, false⟩].map some) 1 rfl rfl (by decide)

/-- C3: pagination refinement.  When a row fails to convert right after
exactly `MAX_PAGE_SIZE` processed rows in the pass, the run resumes from
the carried `lastUid` over the re-queried remainder and returns exactly
what a hypothetical single uninterrupted pass over the combined rows
returns — same streamed responses and the same returned statistics
(`entries`, `bulkWrite`, `successful`, `lastUid`, `rowCount`,
`totalBytes`), with no uid duplicated and none missing. -/
theorem claim_C3 (env : FetchEnv) (first rest : List FMsg)
    (junk : List (Option FMsg)) (st : FetchState) (fuel fuel2 : Nat)
    (hsh : env.shutdown = false) (hso : env.socketOpen = true)
    (hfl : ∀ k, env.flushFail k = false)
    (hreq : ∀ lu, env.requery lu = rest.map some)
    (hlen : first.length = MAX_PAGE_SIZE) :
    fetchGo env (fuel + 1) st (first.map some ++ none :: junk)
      = .ok (stepAll env st (first ++ rest)) ∧
    fetchGo env (fuel + 1) st (first.map some ++ none :: junk)
      = fetchGo env fuel2 st ((first ++ rest).map some) ∧
    (st.streamed = [] →
      (fetchGo env (fuel + 1) st (first.map some ++ none :: junk)).state.streamed
        = ((first ++ rest).filter (keepRow env)).map (fun m => m.uid)) ∧
    (st.streamed = [] → ((first ++ rest).map (fun m => m.uid)).Nodup →
      (fetchGo env (fuel + 1) st
        (first.map some ++ none :: junk)).state.streamed.Nodup) := by
  have h1 := fetchGo_resume env hsh hso hfl first rest junk st fuel (hreq _) hlen
  have h2 := fetchGo_allSome env hsh hso hfl fuel2 st (first ++ rest)
  have hstream : st.streamed = [] →
      (fetchGo env (fuel + 1) st (first.map some ++ none :: junk)).state.streamed
        = ((first ++ rest).filter (keepRow env)).map (fun m => m.uid) := by
    intro hst
    rw [h1]
    show (stepAll env st (first ++ rest)).streamed = _
    rw [stepAll_streamed, hst, List.nil_append]
  refine ⟨h1, by rw [h1, h2], hstream, ?_⟩
  intro hst hnd
  rw [hstream hst]
  exact ((List.filter_sublist (first ++ rest)).map (fun m => m.uid)).nodup hnd

/-- Witness for C3 at a concrete resumed run: a 2500-row first page, a
disappearing 2501st row, and a one-row remainder on re-query. -/
theorem claim_C3_witness :
    fetchGo fetchEnvC3 1 initFetchState (firstC3.map some ++ none :: [])
      = .ok (stepAll fetchEnvC3 initFetchState (firstC3 ++ restC3)) ∧
    fetchGo fetchEnvC3 1 initFetchState (firstC3.map some ++ none :: [])
      = fetchGo fetchEnvC3 0 initFetchState ((firstC3 ++ restC3).map some) := by
  have h := claim_C3 fetchEnvC3 firstC3 restC3 [] initFetchState 0 0
    rfl rfl (fun _ => rfl) (fun _ => rfl) (by simp [firstC3])
  exact ⟨h.1, h.2.1⟩

set_option maxRecDepth 100000 in
/-- C4: batched flushing.  First conjunct: in the concrete fetch in
which exactly 301 messages are eligible for the Seen-flag update, the
batched `Messages.bulkWrite` calls are exactly three, of sizes 150, 150
and 1 in that order (the last one being the partial-batch flush after
the loop), and 301 ops were queued in total.  Second conjunct: on any
fetch whose flushes all succeed and that ends in the callback (normal
completion or pagination break), every queued flag-update op lands in
exactly the recorded sequence of flush calls — nothing accumulated is
silently dropped. -/
theorem claim_C4 :
    onFetchObs (onFetch fetchEnv301 1 (msgs301.map some))
      = some ([150, 150, 1], 301) ∧
    ∀ (env : FetchEnv) (fuel : Nat) (rows : List (Option FMsg)) (out : OnFetchOk),
      (∀ k, env.flushFail k = false) →
      onFetch env fuel rows = .ok out →
      out.allFlushes.flatten = out.pushed := by
  constructor
  · decide
  · intro env fuel rows out hfl hok
    unfold onFetch at hok
    split at hok
    · simp at hok
    · simp at hok
    · simp at hok
    case _ st heq =>
      have hinv : invFB st := by
        have hh := fetchGo_inv env hfl fuel initFetchState rows
          (by simp [invFB, initFetchState])
        rw [heq] at hh
        simpa [FetchOut.state] using hh
      unfold invFB at hinv
      split at hok
      case _ hempty =>
        simp only [finishEntries, Except.ok.injEq] at hok
        rw [← hok]
        have hbw : st.bulkWrite = [] := by simpa [List.isEmpty_iff] using hempty
        rw [hbw, List.append_nil] at hinv
        simpa using hinv
      split at hok
      · simp at hok
      case _ hfail =>
        simp only [finishEntries, Except.ok.injEq] at hok
        rw [← hok]
        simpa [List.flatten_append] using hinv

/-- Witness for the general half of C4: a one-row fetch whose single
queued op is flushed by the after-loop partial flush. -/
theorem claim_C4_witness :
    ([[((1 : Nat), (1 : Nat))]] : List (List (Nat × Nat))).flatten = [(1, 1)] :=
  claim_C4.2 fetchEnv301 1 [some ⟨1, 1, false⟩]
    { successful := true, rowCount := 1, totalBytes := 1, streamed := [1]
      allFlushes := [[(1, 1)]], pushed := [(1, 1)], fires := 0 }
    (fun _ => rfl) rfl

/-- C5: a failing batched flush is absorbed.  When the in-loop
`Messages.bulkWrite` call rejects, the failure is logged, both in-flight
batches are discarded, the row's response had already been streamed and
is untouched, nothing new is recorded as flushed, the loop breaks, and
`getMessages` returns normally (no exception) with `successful = false`. -/
theorem claim_C5 (env : FetchEnv) (fuel : Nat) (st st' : FetchState)
    (count : Nat) (m : FMsg) (rs : List (Option FMsg))
    (hsh : env.shutdown = false) (hso : env.socketOpen = true)
    (hstop : stepRow env st m = .stop st') :
    st'.successful = false ∧ st'.bulkWrite = [] ∧ st'.entries = [] ∧
    st'.fatalLogs = st.fatalLogs + 1 ∧ st'.streamed = st.streamed ++ [m.uid] ∧
    st'.flushes = st.flushes ∧
    onePass env st count (some m :: rs) = .done st' ∧
    fetchGo env fuel st (some m :: rs) = .ok st' := by
  obtain ⟨h1, h2, h3, h4, h5, h6⟩ := stepRow_stop_fields env st m st' hstop
  have hpass : ∀ c, onePass env st c (some m :: rs) = .done st' := by
    intro c
    simp [onePass, hsh, hso, hstop]
  refine ⟨h1, h2, h3, h4, h5, h6, hpass count, ?_⟩
  unfold fetchGo
  rw [hpass 0]

set_option maxRecDepth 100000 in
/-- Witness for C5 at a concrete run: 149 ops already queued, an
eligible 150th row, and a store that rejects the first bulk flush. -/
theorem claim_C5_witness :
    stC5x.successful = false ∧ stC5x.bulkWrite = [] ∧ stC5x.entries = [] ∧
    stC5x.fatalLogs = stC5.fatalLogs + 1 ∧
    stC5x.streamed = stC5.streamed ++ [mC5.uid] ∧
    stC5x.flushes = stC5.flushes ∧
    onePass fetchEnvC5 stC5 0 (some mC5 :: []) = .done stC5x ∧
    fetchGo fetchEnvC5 7 stC5 (some mC5 :: []) = .ok stC5x :=
  claim_C5 fetchEnvC5 7 stC5 stC5x 0 mC5 [] rfl rfl (by decide)

end Spec2Proof
